import Mathlib

/-!
Verification development for the multi-account TradeLocker trading bot
(`src/trading-bot/src/server.py`).

The Python source is shallowly embedded: quantities and prices are exact
rationals (`ℚ`), broker interactions are supplied as explicit outcome
environments, and the SQLite trade ledger is a list of records.  Each
definition mirrors one Python function and keeps its name.
-/

/-! ## Backoff Executor (`_with_429_backoff`, server.py lines 79-109)

`req_fn` is modelled as an environment `env : Nat → CallOutcome α` giving the
outcome of each attempt (0-indexed).  A raised exception carries its message
string; the source classifies throttling by substring inspection of that
message.  The result records the number of backoff sleeps performed
(`time.sleep(sleep_s)` calls; the separate rate-limiter component is not
counted here). -/

/-- Outcome of one SDK call attempt: a value, or a raised exception message. -/
inductive CallOutcome (α : Type) where
  | ok (a : α)
  | raise (msg : String)
deriving DecidableEq, Repr

/-- Result of `_with_429_backoff`: the value, the re-raised non-throttling
exception, or the dedicated `RuntimeError` on exhaustion. -/
inductive BackoffResult (α : Type) where
  | ok (a : α)
  | raised (msg : String)
  | exhausted (msg : String)
deriving DecidableEq, Repr

/-- Whether `needle` occurs at the start of `hay` (on character lists). -/
def charsBeginWith : List Char → List Char → Bool
  | _, [] => true
  | [], _ :: _ => false
  | c :: cs, d :: ds => c == d && charsBeginWith cs ds

/-- Whether `needle` occurs anywhere inside `hay` (on character lists). -/
def charsContain : List Char → List Char → Bool
  | [], needle => needle.isEmpty
  | c :: cs, needle => charsBeginWith (c :: cs) needle || charsContain cs needle

/-- Python's `needle in hay` on strings. -/
def strContains (hay needle : String) : Bool :=
  charsContain hay.data needle.data

/-- `("429" in msg) or ("Too Many Requests" in msg)` from server.py line 91:
the throttling classification of a raised exception. -/
def is_429 (msg : String) : Bool :=
  strContains msg "429" || strContains msg "Too Many Requests"

/-- The message of the `RuntimeError` raised when attempts are exhausted
(server.py line 109). -/
def exhaustedMsg (account_name endpoint_key : String) (max_attempts : Nat) : String :=
  "[" ++ account_name ++ "] Too Many Requests on " ++ endpoint_key ++
    " after " ++ toString max_attempts ++ " attempts"

/-- Loop body of `_with_429_backoff`: `idx` is the 0-based attempt index,
`sleeps` counts backoff sleeps so far, the last argument is remaining fuel
(`max_attempts - idx`). -/
def with429Go {α : Type} (account_name endpoint_key : String) (max_attempts : Nat)
    (env : Nat → CallOutcome α) : Nat → Nat → Nat → BackoffResult α × Nat
  | _, sleeps, 0 => (.exhausted (exhaustedMsg account_name endpoint_key max_attempts), sleeps)
  | idx, sleeps, fuel + 1 =>
    match env idx with
    | .ok a => (.ok a, sleeps)
    | .raise msg =>
      if is_429 msg then
        with429Go account_name endpoint_key max_attempts env (idx + 1) (sleeps + 1) fuel
      else
        (.raised msg, sleeps)

/-- `_with_429_backoff(req_fn, account_name, endpoint_key, max_attempts)`
(server.py lines 79-109).  Returns the result together with the number of
backoff sleeps performed. -/
def _with_429_backoff {α : Type} (env : Nat → CallOutcome α)
    (account_name endpoint_key : String) (max_attempts : Nat) : BackoffResult α × Nat :=
  with429Go account_name endpoint_key max_attempts env 0 0 max_attempts

/-! ## Resilient Closer (`_position_absent`, `close_filled_position_safe`,
server.py lines 483-567)

Each loop iteration consumes one `CloseAttempt` describing that attempt's
environment: the outcome of `tl.get_access_token()` (which may raise a
transport exception — caught by `except requests.RequestException` — or any
other exception, which is not caught), the outcome of the HTTP DELETE, and
the outcome of the `tl.get_all_positions()` fetch used by `_position_absent`
on that attempt.  `max_retries` is the length of the attempt list.  The
Python function implicitly returns `None` when the loop body never runs, so
the result type is `Except Unit (Option Bool)`: `.error ()` is a propagated
exception, `.ok none` is Python's `None`. -/

/-- Outcome of `tl.get_access_token()` inside `_headers()`. -/
inductive TokenFetch where
  | ok
  | raiseTransport
  | raiseOther
deriving DecidableEq, Repr

/-- Environment of one iteration of the close-retry loop. -/
structure CloseAttempt where
  token : TokenFetch
  /-- `.error ()` models a `requests.RequestException` from the DELETE;
  `.ok code` is the HTTP status code. -/
  http : Except Unit Nat
  /-- Outcome of `tl.get_all_positions()`: raised (`.error`), returned `None`
  (`.ok none`), or returned a frame with the listed position ids. -/
  posFetch : Except Unit (Option (List String))
deriving Repr

/-- `_position_absent(tl, position_id)` (server.py lines 483-492). -/
def _position_absent (position_id : String) (fetch : Except Unit (Option (List String))) : Bool :=
  match fetch with
  | .error _ => false
  | .ok none => true
  | .ok (some ids) => if ids.isEmpty then true else !ids.contains position_id

/-- `close_filled_position_safe(tl, position_id, max_retries=len(attempts))`
(server.py lines 495-567).  `attempt < max_retries` in the source corresponds
to the remaining attempt list being nonempty. -/
def close_filled_position_safe (position_id : String) :
    List CloseAttempt → Except Unit (Option Bool)
  | [] => .ok none
  | a :: rest =>
    match a.token with
    | .raiseOther => .error ()
    | .raiseTransport =>
      if rest.isEmpty then .ok (some false)
      else close_filled_position_safe position_id rest
    | .ok =>
      match a.http with
      | .error _ =>
        if rest.isEmpty then .ok (some false)
        else close_filled_position_safe position_id rest
      | .ok code =>
        if code = 200 ∨ code = 204 then .ok (some true)
        else if code = 404 ∧ _position_absent position_id a.posFetch then .ok (some true)
        else if code = 401 ∨ code = 403 then
          if rest.isEmpty then .ok (some false)
          else close_filled_position_safe position_id rest
        else if code = 409 then
          if _position_absent position_id a.posFetch then .ok (some true)
          else if rest.isEmpty then .ok (some false)
          else close_filled_position_safe position_id rest
        else
          if rest.isEmpty then .ok (some false)
          else close_filled_position_safe position_id rest

/-! ## Trade Ledger (SQLite `trades` table, server.py lines 155-290)

The table is a list of rows.  `id` mirrors the `INTEGER PRIMARY KEY
AUTOINCREMENT` rowid; `created_at` / `updated_at` / `close_timestamp` are
abstract clock values supplied by the caller (`CURRENT_TIMESTAMP`).  Statuses
are the literal strings the source stores. -/

/-- One row of the `trades` table (columns the ledger operations touch). -/
structure TradeRec where
  id : Nat
  trade_id : String
  account_name : String
  symbol : String
  side : String
  lot_size : ℚ
  entry_price : ℚ
  sl_price : ℚ
  order_id : Option String
  position_id : Option String
  status : String
  created_at : Nat
  updated_at : Nat
  metadata : Option String
  close_timestamp : Option Nat
  close_position_id : Option String
  close_order_id : Option String
  realized_pnl : ℚ
  close_method : Option String
deriving DecidableEq, Repr

/-- Next `AUTOINCREMENT` rowid. -/
def nextRowId (db : List TradeRec) : Nat :=
  (db.map (fun r => r.id)).foldr max 0 + 1

/-- `save_trade_to_db` (server.py lines 217-234): `INSERT OR REPLACE` keyed by
`UNIQUE(trade_id, account_name)` deletes any conflicting row and inserts a
fresh one with status `'PENDING'` and default close fields. -/
def save_trade_to_db (trade_id account_name symbol side : String)
    (lot_size entry_price sl_price : ℚ) (order_id : Option String)
    (metadata : Option String) (now : Nat) (db : List TradeRec) : List TradeRec :=
  db.filter (fun r => !(r.trade_id == trade_id && r.account_name == account_name)) ++
    [{ id := nextRowId db
       trade_id := trade_id
       account_name := account_name
       symbol := symbol
       side := side
       lot_size := lot_size
       entry_price := entry_price
       sl_price := sl_price
       order_id := order_id
       position_id := none
       status := "PENDING"
       created_at := now
       updated_at := now
       metadata := metadata
       close_timestamp := none
       close_position_id := none
       close_order_id := none
       realized_pnl := 0
       close_method := none }]

/-- Row transform of `update_trade_status`'s `UPDATE ... WHERE trade_id = ?
AND account_name = ?` (server.py lines 240-252): applied to every row, with
no guard on current status. -/
def updateRow (trade_id account_name status : String) (position_id : Option String)
    (metadata : Option String) (now : Nat) (r : TradeRec) : TradeRec :=
  if r.trade_id == trade_id && r.account_name == account_name then
    match position_id with
    | some pid =>
      { r with status := status, position_id := some pid, metadata := metadata,
               updated_at := now }
    | none =>
      { r with status := status, metadata := metadata, updated_at := now }
  else r

/-- `update_trade_status` (server.py lines 237-258): updates every row with
the given `(trade_id, account_name)` key, with no guard on current status. -/
def update_trade_status (trade_id account_name status : String)
    (position_id : Option String) (metadata : Option String) (now : Nat)
    (db : List TradeRec) : List TradeRec :=
  db.map (updateRow trade_id account_name status position_id metadata now)

/-- The `WHERE` clause of `close_trade_in_db`'s `UPDATE` (server.py lines
274-276): matching key fields, status `'PENDING'` or `'FILLED'`, and no close
timestamp. -/
def openMatch (account_name symbol side : String) (lot_size : ℚ) (r : TradeRec) : Bool :=
  r.account_name == account_name && r.symbol == symbol && r.side == side &&
    decide (r.lot_size = lot_size) &&
    (r.status == "PENDING" || r.status == "FILLED") && r.close_timestamp.isNone

/-- `ORDER BY created_at DESC LIMIT 1`: the first row of maximal
`created_at` among the candidates. -/
def pickLatest : List TradeRec → Option TradeRec
  | [] => none
  | r :: rest =>
    match pickLatest rest with
    | none => some r
    | some b => if b.created_at > r.created_at then some b else some r

/-- The field updates applied by `close_trade_in_db`'s `SET` clause. -/
def closedRec (close_method : String) (position_id order_id : Option String)
    (realized_pnl : ℚ) (now : Nat) (r : TradeRec) : TradeRec :=
  { r with status := "CLOSED", close_timestamp := some now,
           close_position_id := position_id, close_order_id := order_id,
           realized_pnl := realized_pnl, close_method := some close_method,
           updated_at := now }

/-- Row transform of `close_trade_in_db`'s `UPDATE`: only the selected
target row (identified by rowid) receives the `SET` clause. -/
def closeRow (target_id : Nat) (close_method : String) (position_id order_id : Option String)
    (realized_pnl : ℚ) (now : Nat) (r : TradeRec) : TradeRec :=
  if r.id == target_id then closedRec close_method position_id order_id realized_pnl now r
  else r

/-- `close_trade_in_db` (server.py lines 261-290): closes the most recently
created open row matching `(account_name, symbol, side, lot_size)`, returning
`true` iff a row was updated. -/
def close_trade_in_db (account_name symbol side : String) (lot_size : ℚ)
    (close_method : String) (position_id order_id : Option String)
    (realized_pnl : ℚ) (now : Nat) (db : List TradeRec) : Bool × List TradeRec :=
  match pickLatest (db.filter (openMatch account_name symbol side lot_size)) with
  | none => (false, db)
  | some target =>
    (true, db.map (closeRow target.id close_method position_id order_id realized_pnl now))

/-- A ledger operation, for stating invariants over operation sequences. -/
inductive LedgerOp where
  | save (trade_id account_name symbol side : String) (lot_size entry_price sl_price : ℚ)
      (order_id : Option String) (metadata : Option String) (now : Nat)
  | update (trade_id account_name status : String) (position_id : Option String)
      (metadata : Option String) (now : Nat)
  | close (account_name symbol side : String) (lot_size : ℚ) (close_method : String)
      (position_id order_id : Option String) (realized_pnl : ℚ) (now : Nat)

/-- Apply one ledger operation to the database. -/
def applyOp (db : List TradeRec) : LedgerOp → List TradeRec
  | .save tid acct sym sd lot ep sl oid meta now =>
    save_trade_to_db tid acct sym sd lot ep sl oid meta now db
  | .update tid acct status pid meta now =>
    update_trade_status tid acct status pid meta now db
  | .close acct sym sd lot method pid oid pnl now =>
    (close_trade_in_db acct sym sd lot method pid oid pnl now db).2

/-- At most one row per `(trade_id, account_name)` key — the schema's
`UNIQUE(trade_id, account_name)` constraint. -/
def uniqueKeys (db : List TradeRec) : Prop :=
  db.Pairwise (fun a b => ¬(a.trade_id = b.trade_id ∧ a.account_name = b.account_name))

/-! ## Signal validation (server.py lines 376-405) -/

/-- `validate_trade_parameters(lot_size, entry_price, trade_id)`
(server.py lines 376-389). -/
def validate_trade_parameters (lot_size entry_price : ℚ) (trade_id : String) : List String :=
  (if trade_id = "" ∨ trade_id.trim = "" then ["Trade ID is required"] else []) ++
  (if lot_size ≤ 0 then ["Invalid lot size: " ++ toString lot_size] else []) ++
  (if entry_price ≤ 0 then ["Invalid entry price: " ++ toString entry_price] else [])

/-- `validate_exit_parameters(symbol, side, lot_size)` (server.py lines 392-405). -/
def validate_exit_parameters (symbol side : String) (lot_size : ℚ) : List String :=
  (if symbol = "" ∨ symbol.trim = "" then ["Symbol is required"] else []) ++
  (if side ∉ (["buy", "sell", "BUY", "SELL"] : List String)
   then ["Invalid side: " ++ side] else []) ++
  (if lot_size ≤ 0 then ["Invalid lot size: " ++ toString lot_size] else [])

/-! ## Entry path (`handle_entry_signal`, server.py lines 654-765)

Per-account broker behaviour is an oracle `place : String → Except String
String`: for each account name, either the order id returned by
`place_limit_order` or the message of the exception it raised.  The handler
returns the HTTP-level response together with the trace of externally visible
actions (broker calls and ledger writes), in order. -/

/-- An externally visible action of the entry path. -/
inductive EntryAction where
  | placeOrder (account symbol side : String) (lot_size entry_price sl_price : ℚ)
  | saveTrade (trade_id account : String)
deriving DecidableEq, Repr

/-- Per-account entry in `account_results`. -/
structure EntryAcctResult where
  account : String
  success : Bool
  order_id : Option String
  err : Option String
deriving DecidableEq, Repr

/-- The response of `handle_entry_signal`. -/
inductive EntryResponse where
  | validationError (errors : List String)
  | completed (successful failed : Nat) (results : List EntryAcctResult)
deriving DecidableEq, Repr

/-- `handle_entry_signal` (server.py lines 654-765): validate, then fan out
over the active accounts placing a limit order and saving a ledger row. -/
def handle_entry_signal (symbol signal_type trade_id : String)
    (lot_size entry_price sl_price : ℚ) (active_accounts : List String)
    (place : String → Except String String) : EntryResponse × List EntryAction :=
  let validation_errors := validate_trade_parameters lot_size entry_price trade_id
  if validation_errors ≠ [] then
    (.validationError validation_errors, [])
  else
    let side := if signal_type = "BUY" then "buy" else "sell"
    let final := active_accounts.foldl
      (fun (st : Nat × Nat × List EntryAcctResult × List EntryAction) account_name =>
        match place account_name with
        | .ok oid =>
          (st.1 + 1, st.2.1,
           st.2.2.1 ++ [⟨account_name, true, some oid, none⟩],
           st.2.2.2 ++ [.placeOrder account_name symbol side lot_size entry_price sl_price,
                        .saveTrade trade_id account_name])
        | .error e =>
          (st.1, st.2.1 + 1,
           st.2.2.1 ++ [⟨account_name, false, none, some e⟩],
           st.2.2.2 ++ [.placeOrder account_name symbol side lot_size entry_price sl_price]))
      (0, 0, [], [])
    (.completed final.1 final.2.1 final.2.2.1, final.2.2.2)

/-! ## Exit path: matcher and per-account processing
(`handle_exit_signal`, server.py lines 768-953)

Per account the broker state is an `ExitEnv`: the order and position pulls
(`none` models a failed pull, treated as an empty result set), the instrument
cache lookup, and boolean oracles for `cancel_pending_order` and
`close_filled_position_safe`. -/

/-- A live order row as returned by `tl.get_all_orders()`. -/
structure BOrder where
  id : String
  tradableInstrumentId : Nat
  side : String
  qty : ℚ
deriving DecidableEq, Repr

/-- A live position row as returned by `tl.get_all_positions()`. -/
structure BPosition where
  id : String
  tradableInstrumentId : Nat
  side : String
  qty : ℚ
  unrealizedPl : ℚ
deriving DecidableEq, Repr

/-- Broker-facing environment of one account during exit processing. -/
structure ExitEnv where
  orders : Option (List BOrder)
  positions : Option (List BPosition)
  /-- `get_symbol_from_instrument_id` through the per-account instrument
  cache. -/
  resolveSymbol : Nat → Option String
  /-- Result of `cancel_pending_order(tl, order_id)`. -/
  cancelOk : String → Bool
  /-- Result of `close_filled_position_safe(tl, position_id)`. -/
  closeOk : String → Bool

/-- The order-matching condition of server.py lines 834-838: resolved symbol,
side, and quantity within the float tolerance `0.001`. -/
def orderMatchesSignal (resolveSymbol : Nat → Option String) (symbol side : String)
    (lot_size : ℚ) (o : BOrder) : Bool :=
  resolveSymbol o.tradableInstrumentId == some symbol && o.side == side &&
    decide (|o.qty - lot_size| < 1 / 1000)

/-- The position-matching condition of server.py lines 873-877: resolved
symbol, side, and quantity within the float tolerance `0.001`. -/
def positionMatchesSignal (resolveSymbol : Nat → Option String) (symbol side : String)
    (lot_size : ℚ) (p : BPosition) : Bool :=
  resolveSymbol p.tradableInstrumentId == some symbol && p.side == side &&
    decide (|p.qty - lot_size| < 1 / 1000)

/-- An externally visible action of exit processing for one account. -/
inductive ExitAction where
  | cancelOrder (id : String)
  | closePosition (id : String)
  | dbCloseOrder (id : String)
  | dbClosePosition (id : String) (pnl : ℚ)
deriving DecidableEq, Repr

/-- The per-account `status` recorded in `account_results`. -/
inductive AcctExitStatus where
  | orderCancelled (id : String)
  | positionClosed (id : String) (pnl : ℚ)
  | noPositionFound
  | failed
deriving DecidableEq, Repr

/-- Per-account outcome: status, action trace, and the increments applied to
the `successful_count` / `no_position_count` / `failed_count` aggregates. -/
structure AcctExitOutcome where
  status : AcctExitStatus
  actions : List ExitAction
  dSuccess : Nat
  dNoPosition : Nat
  dFailed : Nat
deriving DecidableEq, Repr

/-- The orders list actually iterated: a failed or empty pull yields no
iterations (server.py line 826). -/
def ordersOf (env : ExitEnv) : List BOrder :=
  match env.orders with
  | none => []
  | some l => l

/-- The positions list actually iterated (server.py line 865). -/
def positionsOf (env : ExitEnv) : List BPosition :=
  match env.positions with
  | none => []
  | some l => l

/-- Step 2 of per-account exit processing (server.py lines 861-916): scan the
positions for the first match.  A failed close raises an exception that is
caught at line 906 (incrementing `failed_count`) after which line 911 records
`NO_POSITION_FOUND` (incrementing `no_position_count`).  `pre` is the action
trace accumulated by the order step. -/
def exitPositionStep (symbol side : String) (lot_size : ℚ) (env : ExitEnv)
    (pre : List ExitAction) : AcctExitOutcome :=
  match (positionsOf env).find? (positionMatchesSignal env.resolveSymbol symbol side lot_size) with
  | some p =>
    if env.closeOk p.id then
      { status := .positionClosed p.id p.unrealizedPl
        actions := pre ++ [.closePosition p.id, .dbClosePosition p.id p.unrealizedPl]
        dSuccess := 1, dNoPosition := 0, dFailed := 0 }
    else
      { status := .noPositionFound
        actions := pre ++ [.closePosition p.id]
        dSuccess := 0, dNoPosition := 1, dFailed := 1 }
  | none =>
    { status := .noPositionFound, actions := pre
      dSuccess := 0, dNoPosition := 1, dFailed := 0 }

/-- Per-account body of `handle_exit_signal` (server.py lines 796-924):
step 1 scans the orders for the first match and tries to cancel it; a failed
cancellation raises an exception that is swallowed at line 858, after which
step 2 scans the positions. -/
def processExitAccount (symbol side : String) (lot_size : ℚ) (env : ExitEnv) : AcctExitOutcome :=
  match (ordersOf env).find? (orderMatchesSignal env.resolveSymbol symbol side lot_size) with
  | some o =>
    if env.cancelOk o.id then
      { status := .orderCancelled o.id
        actions := [.cancelOrder o.id, .dbCloseOrder o.id]
        dSuccess := 1, dNoPosition := 0, dFailed := 0 }
    else
      exitPositionStep symbol side lot_size env [.cancelOrder o.id]
  | none => exitPositionStep symbol side lot_size env []

/-- The `summary` block of the exit response (server.py lines 938-943). -/
structure ExitSummary where
  successful_closes : Nat
  no_position_found : Nat
  failed : Nat
deriving DecidableEq, Repr

/-- Aggregate the per-account outcomes into the exit summary. -/
def exitSummary (outs : List AcctExitOutcome) : ExitSummary :=
  outs.foldl
    (fun s o => { successful_closes := s.successful_closes + o.dSuccess
                  no_position_found := s.no_position_found + o.dNoPosition
                  failed := s.failed + o.dFailed })
    { successful_closes := 0, no_position_found := 0, failed := 0 }

/-! ## Theorems -/

/-- C7: for every exit-signal target quantity `qty` and broker-reported
quantity `q`, the matcher's quantity predicate holds iff `|q - qty| < 0.001`;
it is symmetric in `q` and `qty`, a deviation of `0.0009` matches and one of
`0.0011` does not, identically in the order scan and the position scan. -/
theorem matcher_quantity_tolerance (symbol sd oid pid : String) (tid : Nat) (q qty pnl : ℚ) :
    (orderMatchesSignal (fun _ => some symbol) symbol sd qty ⟨oid, tid, sd, q⟩ = true ↔
       |q - qty| < 1 / 1000)
  ∧ (positionMatchesSignal (fun _ => some symbol) symbol sd qty ⟨pid, tid, sd, q, pnl⟩ = true ↔
       |q - qty| < 1 / 1000)
  ∧ (orderMatchesSignal (fun _ => some symbol) symbol sd q ⟨oid, tid, sd, qty⟩ =
       orderMatchesSignal (fun _ => some symbol) symbol sd qty ⟨oid, tid, sd, q⟩)
  ∧ orderMatchesSignal (fun _ => some symbol) symbol sd qty ⟨oid, tid, sd, qty + 9/10000⟩ = true
  ∧ orderMatchesSignal (fun _ => some symbol) symbol sd qty ⟨oid, tid, sd, qty - 9/10000⟩ = true
  ∧ orderMatchesSignal (fun _ => some symbol) symbol sd qty ⟨oid, tid, sd, qty + 11/10000⟩ = false
  ∧ orderMatchesSignal (fun _ => some symbol) symbol sd qty ⟨oid, tid, sd, qty - 11/10000⟩ = false
  ∧ positionMatchesSignal (fun _ => some symbol) symbol sd qty ⟨pid, tid, sd, qty + 9/10000, pnl⟩ = true
  ∧ positionMatchesSignal (fun _ => some symbol) symbol sd qty ⟨pid, tid, sd, qty + 11/10000, pnl⟩ = false := by
  have horder : ∀ a b : ℚ,
      orderMatchesSignal (fun _ => some symbol) symbol sd b ⟨oid, tid, sd, a⟩ = true ↔
        |a - b| < 1 / 1000 := by
    intro a b
    simp [orderMatchesSignal]
  have hpos : ∀ a b : ℚ,
      positionMatchesSignal (fun _ => some symbol) symbol sd b ⟨pid, tid, sd, a, pnl⟩ = true ↔
        |a - b| < 1 / 1000 := by
    intro a b
    simp [positionMatchesSignal]
  have h9p : |qty + 9/10000 - qty| < 1 / 1000 := by
    rw [add_sub_cancel_left, abs_lt]
    constructor <;> norm_num
  have h9m : |qty - 9/10000 - qty| < 1 / 1000 := by
    have he : qty - 9/10000 - qty = -(9/10000) := by ring
    rw [he, abs_neg, abs_lt]
    constructor <;> norm_num
  have h11p : ¬(|qty + 11/10000 - qty| < 1 / 1000) := by
    rw [add_sub_cancel_left, abs_lt]
    rintro ⟨-, h2⟩
    norm_num at h2
  have h11m : ¬(|qty - 11/10000 - qty| < 1 / 1000) := by
    have he : qty - 11/10000 - qty = -(11/10000) := by ring
    rw [he, abs_neg, abs_lt]
    rintro ⟨-, h2⟩
    norm_num at h2
  refine ⟨horder q qty, hpos q qty, ?_, (horder _ _).mpr h9p, (horder _ _).mpr h9m, ?_, ?_,
    (hpos _ _).mpr h9p, ?_⟩
  · rw [Bool.eq_iff_iff, horder, horder, abs_sub_comm]
  · exact Bool.eq_false_iff.mpr (fun h => h11p ((horder _ _).mp h))
  · exact Bool.eq_false_iff.mpr (fun h => h11m ((horder _ _).mp h))
  · exact Bool.eq_false_iff.mpr (fun h => h11p ((hpos _ _).mp h))

/-- C5: for the Resilient Closer, a 409 response followed by an absent
position on re-check returns success immediately, while a 404 response with
the position still present does not return success: it retries on the
remaining attempts, or fails when none remain. -/
theorem closer_conflict_and_notfound_paths :
    (∀ (pid : String) (a : CloseAttempt) (rest : List CloseAttempt),
       a.token = TokenFetch.ok → a.http = .ok 409 →
       _position_absent pid a.posFetch = true →
       close_filled_position_safe pid (a :: rest) = .ok (some true))
  ∧ (∀ (pid : String) (a : CloseAttempt) (rest : List CloseAttempt),
       a.token = TokenFetch.ok → a.http = .ok 404 →
       _position_absent pid a.posFetch = false →
       close_filled_position_safe pid (a :: rest) =
         if rest.isEmpty then .ok (some false)
         else close_filled_position_safe pid rest) := by
  constructor
  · rintro pid ⟨tok, http, pf⟩ rest htok hhttp habs
    cases htok
    cases hhttp
    simp only [close_filled_position_safe] at *
    simp [habs]
  · rintro pid ⟨tok, http, pf⟩ rest htok hhttp habs
    cases htok
    cases hhttp
    simp only [close_filled_position_safe] at *
    simp [habs]

/-- With at least one attempt, the close loop never reaches the implicit
`None` return: every result is an explicit boolean or a propagated
exception. -/
lemma close_cons_ne_none (pid : String) :
    ∀ (l : List CloseAttempt), l ≠ [] →
      close_filled_position_safe pid l ≠ .ok none := by
  intro l
  induction l with
  | nil => intro h; exact absurd rfl h
  | cons a rest ih =>
    intro _
    rcases a with ⟨tok, http, pf⟩
    cases tok with
    | raiseOther => simp [close_filled_position_safe]
    | raiseTransport =>
      simp only [close_filled_position_safe]
      split_ifs with h1
      · simp
      · exact ih (fun hrest => by subst hrest; simp_all)
    | ok =>
      cases http with
      | error e =>
        simp only [close_filled_position_safe]
        split_ifs with h1
        · simp
        · exact ih (fun hrest => by subst hrest; simp_all)
      | ok code =>
        simp only [close_filled_position_safe]
        split_ifs with h1 h2 h3 h4 h5 h6 h7 h8
        all_goals try simp
        all_goals exact ih (fun hrest => by subst hrest; simp_all)

/-- With at least one attempt and no non-transport token-fetch failure, the
close loop returns an explicit boolean. -/
lemma close_total_aux (pid : String) :
    ∀ (l : List CloseAttempt), l ≠ [] →
      (∀ a ∈ l, a.token ≠ TokenFetch.raiseOther) →
      ∃ b, close_filled_position_safe pid l = .ok (some b) := by
  intro l
  induction l with
  | nil => intro h; exact absurd rfl h
  | cons a rest ih =>
    intro _ htok
    have hhead : a.token ≠ TokenFetch.raiseOther := htok a (List.mem_cons_self a rest)
    have htail : ∀ x ∈ rest, x.token ≠ TokenFetch.raiseOther :=
      fun x hx => htok x (List.mem_cons_of_mem a hx)
    rcases a with ⟨tok, http, pf⟩
    cases tok with
    | raiseOther => exact absurd rfl hhead
    | raiseTransport =>
      simp only [close_filled_position_safe]
      split_ifs with h1
      · exact ⟨false, rfl⟩
      · exact ih (fun hrest => by subst hrest; simp_all) htail
    | ok =>
      cases http with
      | error e =>
        simp only [close_filled_position_safe]
        split_ifs with h1
        · exact ⟨false, rfl⟩
        · exact ih (fun hrest => by subst hrest; simp_all) htail
      | ok code =>
        simp only [close_filled_position_safe]
        split_ifs with h1 h2 h3 h4 h5 h6 h7 h8
        all_goals try exact ⟨true, rfl⟩
        all_goals try exact ⟨false, rfl⟩
        all_goals exact ih (fun hrest => by subst hrest; simp_all) htail

/-- C2 (corrected): provided at least one attempt is configured and no
attempt's token fetch raises a non-transport exception, the Resilient Closer
returns a boolean — transport failures and every HTTP status sequence are
contained, and exhaustion yields `false` rather than a thrown exception. -/
theorem closer_returns_bool_when_token_fetch_safe (pid : String)
    (attempts : List CloseAttempt) (h1 : attempts ≠ [])
    (h2 : ∀ a ∈ attempts, a.token ≠ TokenFetch.raiseOther) :
    ∃ b, close_filled_position_safe pid attempts = .ok (some b) :=
  close_total_aux pid attempts h1 h2

/-- Witness for C2's amended theorem at a concrete input: one attempt whose
DELETE suffers a transport failure, so the closer returns `false`. -/
theorem closer_returns_bool_when_token_fetch_safe_witness :
    ∃ b, close_filled_position_safe "9"
      [⟨TokenFetch.ok, .error (), .ok none⟩] = .ok (some b) :=
  closer_returns_bool_when_token_fetch_safe "9" _ (by simp)
    (by intro a ha; rw [List.mem_singleton] at ha; subst ha; simp)

/-- C2 (counterexample): a single attempt whose token fetch raises a
non-transport exception makes `close_filled_position_safe` propagate the
exception instead of returning a boolean, refuting the claim that no thrown
exception ever reaches the caller. -/
theorem closer_token_exception_escapes_cex :
    close_filled_position_safe "9"
      [⟨TokenFetch.raiseOther, .ok 200, .ok none⟩] = .error () := rfl

/-- C10: with `max_retries = 0` the retry loop body never runs and the
function returns Python's implicit `None` rather than a boolean; with at
least one attempt it never returns `None`. -/
theorem closer_zero_retries_returns_none :
    (∀ pid, close_filled_position_safe pid [] = .ok none)
  ∧ (∀ (pid : String) (attempts : List CloseAttempt), attempts ≠ [] →
       close_filled_position_safe pid attempts ≠ .ok none) :=
  ⟨fun _ => rfl, fun pid l h => close_cons_ne_none pid l h⟩

/-- Witness for C10 at concrete inputs: the empty attempt list yields `None`;
a one-attempt run with a 500 response does not. -/
theorem closer_zero_retries_returns_none_witness :
    close_filled_position_safe "1" [] = .ok none ∧
    close_filled_position_safe "1" [⟨TokenFetch.ok, .ok 500, .ok none⟩] ≠ .ok none :=
  ⟨closer_zero_retries_returns_none.1 "1",
   closer_zero_retries_returns_none.2 "1" _ (by simp)⟩

/-- A concrete account state for the C1 counterexample: one live order and
one live position both matching the signal, with order cancellation failing
and position close succeeding. -/
def exitEnvCancelFails : ExitEnv :=
  { orders := some [⟨"o1", 1, "buy", 1⟩]
    positions := some [⟨"p1", 1, "buy", 1, 5⟩]
    resolveSymbol := fun i => if i = 1 then some "EURUSD" else none
    cancelOk := fun _ => false
    closeOk := fun _ => true }

/-- C1 (counterexample): the account's live orders contain a matching order,
yet the exit handler still scans the positions and produces a position-close
action, because a failed cancellation is swallowed and processing falls
through to the position step (server.py lines 856-858, 861). -/
theorem exit_order_match_still_closes_position_cex :
    (ordersOf exitEnvCancelFails).find?
        (orderMatchesSignal exitEnvCancelFails.resolveSymbol "EURUSD" "buy" 1) =
      some ⟨"o1", 1, "buy", 1⟩ ∧
    ExitAction.closePosition "p1" ∈
      (processExitAccount "EURUSD" "buy" 1 exitEnvCancelFails).actions ∧
    (processExitAccount "EURUSD" "buy" 1 exitEnvCancelFails).status =
      AcctExitStatus.positionClosed "p1" 5 := by
  refine ⟨?_, ?_, ?_⟩ <;>
    simp [exitEnvCancelFails, ordersOf, positionsOf, processExitAccount, exitPositionStep,
      List.find?, orderMatchesSignal, positionMatchesSignal]

/-- C1 (amended): whenever the live orders contain a matching order and the
cancellation of the first such order succeeds, the handler records
ORDER_CANCELLED for that account, performs no position-close action, and
never searches the positions. -/
theorem exit_order_match_cancel_success_no_position_close
    (symbol side : String) (lot_size : ℚ) (env : ExitEnv) (o : BOrder)
    (hfind : (ordersOf env).find? (orderMatchesSignal env.resolveSymbol symbol side lot_size) =
      some o)
    (hcancel : env.cancelOk o.id = true) :
    processExitAccount symbol side lot_size env =
      { status := .orderCancelled o.id
        actions := [.cancelOrder o.id, .dbCloseOrder o.id]
        dSuccess := 1, dNoPosition := 0, dFailed := 0 } ∧
    ∀ pid, ExitAction.closePosition pid ∉ (processExitAccount symbol side lot_size env).actions := by
  have h : processExitAccount symbol side lot_size env =
      { status := .orderCancelled o.id
        actions := [.cancelOrder o.id, .dbCloseOrder o.id]
        dSuccess := 1, dNoPosition := 0, dFailed := 0 } := by
    simp [processExitAccount, hfind, hcancel]
  refine ⟨h, ?_⟩
  intro pid
  rw [h]
  simp

/-- A concrete account state for the C1 witness: a matching order whose
cancellation succeeds, alongside a matching position. -/
def exitEnvCancelSucceeds : ExitEnv :=
  { orders := some [⟨"o1", 1, "buy", 1⟩]
    positions := some [⟨"p1", 1, "buy", 1, 5⟩]
    resolveSymbol := fun i => if i = 1 then some "EURUSD" else none
    cancelOk := fun _ => true
    closeOk := fun _ => true }

/-- Witness for C1's amended theorem at a concrete input. -/
theorem exit_order_match_cancel_success_no_position_close_witness :
    processExitAccount "EURUSD" "buy" 1 exitEnvCancelSucceeds =
      { status := .orderCancelled "o1"
        actions := [.cancelOrder "o1", .dbCloseOrder "o1"]
        dSuccess := 1, dNoPosition := 0, dFailed := 0 } ∧
    ∀ pid, ExitAction.closePosition pid ∉
      (processExitAccount "EURUSD" "buy" 1 exitEnvCancelSucceeds).actions :=
  exit_order_match_cancel_success_no_position_close "EURUSD" "buy" 1
    exitEnvCancelSucceeds ⟨"o1", 1, "buy", 1⟩
    (by simp [exitEnvCancelSucceeds, ordersOf, List.find?, orderMatchesSignal])
    (by simp [exitEnvCancelSucceeds])

/-- C9: when the flow reaches the position scan (no matching order, or the
matching order's cancellation failed), a matching position is found, and
`close_filled_position_safe` returns `false`, the account increments both the
failed count and the no-position-found count, and its recorded status is
NO_POSITION_FOUND rather than FAILED. -/
theorem exit_close_failure_double_counts
    (symbol side : String) (lot_size : ℚ) (env : ExitEnv) (p : BPosition)
    (hord : (ordersOf env).find? (orderMatchesSignal env.resolveSymbol symbol side lot_size) =
        none ∨
      ∃ o, (ordersOf env).find? (orderMatchesSignal env.resolveSymbol symbol side lot_size) =
          some o ∧ env.cancelOk o.id = false)
    (hpos : (positionsOf env).find?
        (positionMatchesSignal env.resolveSymbol symbol side lot_size) = some p)
    (hclose : env.closeOk p.id = false) :
    (processExitAccount symbol side lot_size env).status = AcctExitStatus.noPositionFound ∧
    (processExitAccount symbol side lot_size env).dFailed = 1 ∧
    (processExitAccount symbol side lot_size env).dNoPosition = 1 ∧
    exitSummary [processExitAccount symbol side lot_size env] =
      { successful_closes := 0, no_position_found := 1, failed := 1 } := by
  rcases hord with h | ⟨o, ho, hc⟩
  · simp [processExitAccount, h, exitPositionStep, hpos, hclose, exitSummary]
  · simp [processExitAccount, ho, hc, exitPositionStep, hpos, hclose, exitSummary]

/-- A concrete account state for the C9 witness: the orders pull failed, one
matching position exists, and the close call fails. -/
def exitEnvCloseFails : ExitEnv :=
  { orders := none
    positions := some [⟨"p1", 1, "buy", 1, 5⟩]
    resolveSymbol := fun i => if i = 1 then some "EURUSD" else none
    cancelOk := fun _ => true
    closeOk := fun _ => false }

/-- Witness for C9 at a concrete input. -/
theorem exit_close_failure_double_counts_witness :
    (processExitAccount "EURUSD" "buy" 1 exitEnvCloseFails).status =
      AcctExitStatus.noPositionFound ∧
    (processExitAccount "EURUSD" "buy" 1 exitEnvCloseFails).dFailed = 1 ∧
    (processExitAccount "EURUSD" "buy" 1 exitEnvCloseFails).dNoPosition = 1 ∧
    exitSummary [processExitAccount "EURUSD" "buy" 1 exitEnvCloseFails] =
      { successful_closes := 0, no_position_found := 1, failed := 1 } :=
  exit_close_failure_double_counts "EURUSD" "buy" 1 exitEnvCloseFails
    ⟨"p1", 1, "buy", 1, 5⟩
    (Or.inl (by simp [exitEnvCloseFails, ordersOf]))
    (by simp [exitEnvCloseFails, positionsOf, List.find?, positionMatchesSignal])
    (by simp [exitEnvCloseFails])

/-- C8: an entry signal whose lot size is not strictly positive is rejected
with a validation error before any per-account processing: no broker call is
made on any account and no ledger record is written (the action trace is
empty). -/
theorem entry_nonpositive_lot_rejected_before_accounts
    (symbol signal_type trade_id : String) (lot_size entry_price sl_price : ℚ)
    (active_accounts : List String) (place : String → Except String String)
    (hlot : lot_size ≤ 0) :
    handle_entry_signal symbol signal_type trade_id lot_size entry_price sl_price
        active_accounts place =
      (.validationError (validate_trade_parameters lot_size entry_price trade_id), []) ∧
    validate_trade_parameters lot_size entry_price trade_id ≠ [] := by
  have herr : validate_trade_parameters lot_size entry_price trade_id ≠ [] := by
    simp [validate_trade_parameters, hlot]
  constructor
  · rw [handle_entry_signal, if_pos herr]
  · exact herr

/-- Witness for C8 at a concrete input: lot size `0`, one active account. -/
theorem entry_nonpositive_lot_rejected_before_accounts_witness :
    handle_entry_signal "EURUSD" "BUY" "t1" 0 (11/10) 0 ["AccountA"]
        (fun _ => Except.ok "42") =
      (.validationError (validate_trade_parameters 0 (11/10) "t1"), []) ∧
    validate_trade_parameters 0 (11/10) "t1" ≠ [] :=
  entry_nonpositive_lot_rejected_before_accounts "EURUSD" "BUY" "t1" 0 (11/10) 0
    ["AccountA"] (fun _ => Except.ok "42") (by norm_num)

/-- If the first `k` attempts raise throttling-classified failures and
attempt `k` raises a non-throttling failure, the loop re-raises that failure
at attempt `k` having slept only once per preceding throttled attempt. -/
lemma with429Go_propagates {α : Type} (acct ep : String) (maxA : Nat)
    (env : Nat → CallOutcome α) (msg : String) :
    ∀ (k idx sleeps fuel : Nat), k < fuel →
      (∀ i, i < k → ∃ m, env (idx + i) = .raise m ∧ is_429 m = true) →
      env (idx + k) = .raise msg → is_429 msg = false →
      with429Go acct ep maxA env idx sleeps fuel = (.raised msg, sleeps + k) := by
  intro k
  induction k with
  | zero =>
    intro idx sleeps fuel hf h429 henv hmsg
    obtain ⟨n, rfl⟩ : ∃ n, fuel = n + 1 := ⟨fuel - 1, by omega⟩
    rw [Nat.add_zero] at henv
    simp [with429Go, henv, hmsg]
  | succ k ih =>
    intro idx sleeps fuel hf h429 henv hmsg
    obtain ⟨n, rfl⟩ : ∃ n, fuel = n + 1 := ⟨fuel - 1, by omega⟩
    obtain ⟨m, hm, hm429⟩ := h429 0 (Nat.succ_pos k)
    rw [Nat.add_zero] at hm
    have hrec := ih (idx + 1) (sleeps + 1) n (by omega)
      (fun i hi => by
        have hsh : idx + 1 + i = idx + (i + 1) := by omega
        obtain ⟨m2, hm2, h2⟩ := h429 (i + 1) (by omega)
        exact ⟨m2, by rw [hsh]; exact hm2, h2⟩)
      (by
        have hsh : idx + 1 + k = idx + (k + 1) := by omega
        rw [hsh]; exact henv) hmsg
    simp only [with429Go, hm, hm429, if_true]
    rw [hrec]
    have hs : sleeps + 1 + k = sleeps + (k + 1) := by omega
    rw [hs]

/-- If every attempt raises a throttling-classified failure, the loop sleeps
once per attempt and ends with the dedicated exhausted error. -/
lemma with429Go_exhausts {α : Type} (acct ep : String) (maxA : Nat)
    (env : Nat → CallOutcome α) :
    ∀ (fuel idx sleeps : Nat),
      (∀ i, i < fuel → ∃ m, env (idx + i) = .raise m ∧ is_429 m = true) →
      with429Go acct ep maxA env idx sleeps fuel =
        (.exhausted (exhaustedMsg acct ep maxA), sleeps + fuel) := by
  intro fuel
  induction fuel with
  | zero => intro idx sleeps h; simp [with429Go]
  | succ n ih =>
    intro idx sleeps h
    obtain ⟨m, hm, hm429⟩ := h 0 (Nat.succ_pos n)
    rw [Nat.add_zero] at hm
    simp only [with429Go, hm, hm429, if_true]
    have hrec := ih (idx + 1) (sleeps + 1) (fun i hi => by
      have hsh : idx + 1 + i = idx + (i + 1) := by omega
      obtain ⟨m2, hm2, h2⟩ := h (i + 1) (by omega)
      exact ⟨m2, by rw [hsh]; exact hm2, h2⟩)
    rw [hrec]
    have hs : sleeps + 1 + n = sleeps + (n + 1) := by omega
    rw [hs]

/-- C4: a wrapped call failing with a non-throttling error propagates that
same error on that attempt with zero backoff sleeps of its own and no further
attempt (the result is fixed whatever the environment holds beyond attempt
`k`); retries happen only for throttling-classified failures, and exhausting
`max_attempts` raises the dedicated error naming the account and endpoint. -/
theorem backoff_non_throttling_propagates_immediately :
    (∀ (α : Type) (env : Nat → CallOutcome α) (acct ep : String) (maxA k : Nat) (msg : String),
       k < maxA →
       (∀ i, i < k → ∃ m, env i = .raise m ∧ is_429 m = true) →
       env k = .raise msg → is_429 msg = false →
       _with_429_backoff env acct ep maxA = (.raised msg, k))
  ∧ (∀ (α : Type) (env : Nat → CallOutcome α) (acct ep : String) (maxA : Nat),
       (∀ i, i < maxA → ∃ m, env i = .raise m ∧ is_429 m = true) →
       _with_429_backoff env acct ep maxA =
         (.exhausted (exhaustedMsg acct ep maxA), maxA)) := by
  constructor
  · intro α env acct ep maxA k msg hk h429 henv hmsg
    have h := with429Go_propagates acct ep maxA env msg k 0 0 maxA hk
      (fun i hi => by simpa using h429 i hi) (by simpa using henv) hmsg
    simpa [_with_429_backoff] using h
  · intro α env acct ep maxA h
    have hx := with429Go_exhausts acct ep maxA env maxA 0 0
      (fun i hi => by simpa using h i hi)
    simpa [_with_429_backoff] using hx

/-- Witness for C4 at concrete inputs: a non-throttling failure on the first
attempt propagates with zero sleeps; four straight throttling failures
exhaust the four attempts. -/
theorem backoff_non_throttling_propagates_immediately_witness :
    _with_429_backoff (fun _ => (CallOutcome.raise "boom" : CallOutcome Unit))
        "AccountA" "orders" 4 = (.raised "boom", 0) ∧
    _with_429_backoff (fun _ => (CallOutcome.raise "HTTP 429" : CallOutcome Unit))
        "AccountA" "orders" 4 =
      (.exhausted (exhaustedMsg "AccountA" "orders" 4), 4) :=
  ⟨backoff_non_throttling_propagates_immediately.1 Unit
      (fun _ => CallOutcome.raise "boom") "AccountA" "orders" 4 0 "boom"
      (by decide) (fun i hi => absurd hi (by omega)) rfl (by decide),
   backoff_non_throttling_propagates_immediately.2 Unit
      (fun _ => CallOutcome.raise "HTTP 429") "AccountA" "orders" 4
      (fun i hi => ⟨"HTTP 429", rfl, by decide⟩)⟩

/-- At most one non-closed record per `(trade_id, account_name)` key. -/
def atMostOneOpenPerKey (db : List TradeRec) : Prop :=
  db.Pairwise (fun a b =>
    ¬(a.trade_id = b.trade_id ∧ a.account_name = b.account_name ∧
      a.status ≠ "CLOSED" ∧ b.status ≠ "CLOSED"))

/-- Key uniqueness implies at most one non-closed record per key. -/
lemma uniqueKeys_atMostOneOpen {db : List TradeRec} (h : uniqueKeys db) :
    atMostOneOpenPerKey db :=
  List.Pairwise.imp (fun hR hcon => hR ⟨hcon.1, hcon.2.1⟩) h

/-- A result of `pickLatest` is an element of the list. -/
lemma pickLatest_mem : ∀ (l : List TradeRec) (t : TradeRec), pickLatest l = some t → t ∈ l := by
  intro l
  induction l with
  | nil => intro t h; simp [pickLatest] at h
  | cons r rest ih =>
    intro t h
    rw [pickLatest] at h
    cases hp : pickLatest rest with
    | none =>
      rw [hp] at h
      dsimp only [] at h
      have hrt : r = t := by simpa using h
      subst hrt
      exact List.mem_cons_self r rest
    | some b =>
      rw [hp] at h
      dsimp only [] at h
      split_ifs at h with hgt
      · have hb : b = t := by simpa using h
        subst hb
        exact List.mem_cons_of_mem r (ih b hp)
      · have hr : r = t := by simpa using h
        subst hr
        exact List.mem_cons_self r rest

/-- A result of `pickLatest` has maximal creation time in the list. -/
lemma pickLatest_max : ∀ (l : List TradeRec) (t : TradeRec), pickLatest l = some t →
    ∀ u ∈ l, u.created_at ≤ t.created_at := by
  intro l
  induction l with
  | nil => intro t h; simp [pickLatest] at h
  | cons r rest ih =>
    intro t h u hu
    rw [pickLatest] at h
    cases hp : pickLatest rest with
    | none =>
      rw [hp] at h
      dsimp only [] at h
      have hrt : r = t := by simpa using h
      subst hrt
      have hrest : rest = [] := by
        cases rest with
        | nil => rfl
        | cons x xs =>
          rw [pickLatest] at hp
          cases hq : pickLatest xs with
          | none => rw [hq] at hp; dsimp only [] at hp; simp at hp
          | some c => rw [hq] at hp; dsimp only [] at hp; split_ifs at hp
      subst hrest
      have : u = r := by simpa using hu
      subst this
      exact le_refl _
    | some b =>
      rw [hp] at h
      dsimp only [] at h
      split_ifs at h with hgt
      · have hb : b = t := by simpa using h
        subst hb
        rcases List.mem_cons.mp hu with rfl | hu2
        · exact le_of_lt hgt
        · exact ih b hp u hu2
      · have hr : r = t := by simpa using h
        subst hr
        rcases List.mem_cons.mp hu with rfl | hu2
        · exact le_refl _
        · exact le_trans (ih b hp u hu2) (not_lt.mp hgt)

/-- Unpack the `WHERE` clause: every field condition of `openMatch`. -/
lemma openMatch_fields {acct sym sd : String} {lot : ℚ} {r : TradeRec}
    (h : openMatch acct sym sd lot r = true) :
    r.account_name = acct ∧ r.symbol = sym ∧ r.side = sd ∧ r.lot_size = lot ∧
    (r.status = "PENDING" ∨ r.status = "FILLED") ∧ r.close_timestamp = none := by
  simp only [openMatch, Bool.and_eq_true, Bool.or_eq_true, beq_iff_eq,
    decide_eq_true_eq, Option.isNone_iff_eq_none] at h
  obtain ⟨⟨⟨⟨⟨h1, h2⟩, h3⟩, h4⟩, h5⟩, h6⟩ := h
  exact ⟨h1, h2, h3, h4, h5, h6⟩

/-- `updateRow` never changes the key fields. -/
lemma updateRow_keeps_keys (tid acct status : String) (pid meta : Option String)
    (now : Nat) (r : TradeRec) :
    (updateRow tid acct status pid meta now r).trade_id = r.trade_id ∧
    (updateRow tid acct status pid meta now r).account_name = r.account_name := by
  unfold updateRow
  split_ifs with h
  · cases pid <;> exact ⟨rfl, rfl⟩
  · exact ⟨rfl, rfl⟩

/-- `closeRow` never changes the key fields. -/
lemma closeRow_keeps_keys (tgt : Nat) (method : String) (pid oid : Option String)
    (pnl : ℚ) (now : Nat) (r : TradeRec) :
    (closeRow tgt method pid oid pnl now r).trade_id = r.trade_id ∧
    (closeRow tgt method pid oid pnl now r).account_name = r.account_name := by
  unfold closeRow closedRec
  split_ifs with h
  · exact ⟨rfl, rfl⟩
  · exact ⟨rfl, rfl⟩

/-- `save_trade_to_db` preserves key uniqueness: the conflicting row is
removed before the fresh row is appended. -/
lemma uniqueKeys_save (tid acct sym sd : String) (lot ep sl : ℚ)
    (oid meta : Option String) (now : Nat) {db : List TradeRec} (h : uniqueKeys db) :
    uniqueKeys (save_trade_to_db tid acct sym sd lot ep sl oid meta now db) := by
  unfold save_trade_to_db
  rw [uniqueKeys, List.pairwise_append]
  refine ⟨List.Pairwise.sublist (List.filter_sublist db) h, List.pairwise_singleton _ _, ?_⟩
  intro a ha b hb
  rw [List.mem_singleton] at hb
  subst hb
  have hp := (List.mem_filter.mp ha).2
  intro hcon
  obtain ⟨h1, h2⟩ := hcon
  simp only [] at h1 h2
  simp [h1, h2] at hp

/-- `update_trade_status` preserves key uniqueness. -/
lemma uniqueKeys_update (tid acct status : String) (pid meta : Option String)
    (now : Nat) {db : List TradeRec} (h : uniqueKeys db) :
    uniqueKeys (update_trade_status tid acct status pid meta now db) := by
  unfold update_trade_status uniqueKeys
  refine List.Pairwise.map _ ?_ h
  intro a b hab hcon
  apply hab
  have ka := updateRow_keeps_keys tid acct status pid meta now a
  have kb := updateRow_keeps_keys tid acct status pid meta now b
  exact ⟨ka.1 ▸ kb.1 ▸ hcon.1, ka.2 ▸ kb.2 ▸ hcon.2⟩

/-- `close_trade_in_db` preserves key uniqueness. -/
lemma uniqueKeys_close (acct sym sd : String) (lot : ℚ) (method : String)
    (pid oid : Option String) (pnl : ℚ) (now : Nat) {db : List TradeRec}
    (h : uniqueKeys db) :
    uniqueKeys (close_trade_in_db acct sym sd lot method pid oid pnl now db).2 := by
  unfold close_trade_in_db
  cases hp : pickLatest (db.filter (openMatch acct sym sd lot)) with
  | none => simpa using h
  | some t =>
    simp only []
    rw [uniqueKeys]
    refine List.Pairwise.map _ ?_ h
    intro a b hab hcon
    apply hab
    have ka := closeRow_keeps_keys t.id method pid oid pnl now a
    have kb := closeRow_keeps_keys t.id method pid oid pnl now b
    exact ⟨ka.1 ▸ kb.1 ▸ hcon.1, ka.2 ▸ kb.2 ▸ hcon.2⟩

/-- Every single ledger operation preserves key uniqueness. -/
lemma uniqueKeys_applyOp (db : List TradeRec) (op : LedgerOp) (h : uniqueKeys db) :
    uniqueKeys (applyOp db op) := by
  cases op with
  | save tid acct sym sd lot ep sl oid meta now => exact uniqueKeys_save tid acct sym sd lot ep sl oid meta now h
  | update tid acct status pid meta now => exact uniqueKeys_update tid acct status pid meta now h
  | close acct sym sd lot method pid oid pnl now => exact uniqueKeys_close acct sym sd lot method pid oid pnl now h

/-- C6: the record `close_trade_in_db` updates to CLOSED (if any) is drawn
only from records with status PENDING or FILLED and no close timestamp;
among the records matching `(account, symbol, side, lot_size)` it has
maximal creation time (the most recently created one); already-closed
records are never selected. -/
theorem close_trade_selects_latest_open
    (acct sym sd : String) (lot : ℚ) (method : String) (pid oid : Option String)
    (pnl : ℚ) (now : Nat) (db : List TradeRec) :
    (∀ t, pickLatest (db.filter (openMatch acct sym sd lot)) = some t →
       t ∈ db ∧ openMatch acct sym sd lot t = true ∧
       (t.status = "PENDING" ∨ t.status = "FILLED") ∧ t.close_timestamp = none ∧
       t.status ≠ "CLOSED" ∧
       (∀ u ∈ db, openMatch acct sym sd lot u = true → u.created_at ≤ t.created_at) ∧
       close_trade_in_db acct sym sd lot method pid oid pnl now db =
         (true, db.map (closeRow t.id method pid oid pnl now)))
  ∧ (pickLatest (db.filter (openMatch acct sym sd lot)) = none →
       close_trade_in_db acct sym sd lot method pid oid pnl now db = (false, db)) := by
  constructor
  · intro t ht
    have hmem := pickLatest_mem _ t ht
    have hf := List.mem_filter.mp hmem
    have hflds := openMatch_fields hf.2
    refine ⟨hf.1, hf.2, hflds.2.2.2.2.1, hflds.2.2.2.2.2, ?_, ?_, ?_⟩
    · rcases hflds.2.2.2.2.1 with h | h <;> rw [h] <;> decide
    · intro u hu hou
      exact pickLatest_max _ t ht u (List.mem_filter.mpr ⟨hu, hou⟩)
    · simp only [close_trade_in_db, ht]
  · intro hnone
    simp only [close_trade_in_db, hnone]

/-- An open PENDING row created at time 10. -/
def trOpenOld : TradeRec :=
  { id := 1, trade_id := "t1", account_name := "A", symbol := "EURUSD", side := "buy"
    lot_size := 1, entry_price := 2, sl_price := 0, order_id := some "o1"
    position_id := none, status := "PENDING", created_at := 10, updated_at := 10
    metadata := none, close_timestamp := none, close_position_id := none
    close_order_id := none, realized_pnl := 0, close_method := none }

/-- An open FILLED row with the same matching fields, created later. -/
def trOpenNew : TradeRec :=
  { trOpenOld with id := 2, trade_id := "t2", status := "FILLED"
                   created_at := 20, updated_at := 20 }

/-- A CLOSED row with the same matching fields, created last. -/
def trClosedRow : TradeRec :=
  { trOpenOld with id := 3, trade_id := "t3", status := "CLOSED"
                   created_at := 30, updated_at := 30, close_timestamp := some 30 }

/-- Concrete ledger state: two open rows and one closed row, all matching. -/
def dbLedger : List TradeRec := [trOpenOld, trOpenNew, trClosedRow]

/-- Witness for C6 at a concrete input: among two open matching rows and a
later closed one, the most recently created open row (`trOpenNew`) is the
row selected and closed. -/
theorem close_trade_selects_latest_open_witness :
    trOpenNew ∈ dbLedger ∧ openMatch "A" "EURUSD" "buy" 1 trOpenNew = true ∧
    (trOpenNew.status = "PENDING" ∨ trOpenNew.status = "FILLED") ∧
    trOpenNew.close_timestamp = none ∧ trOpenNew.status ≠ "CLOSED" ∧
    (∀ u ∈ dbLedger, openMatch "A" "EURUSD" "buy" 1 u = true →
      u.created_at ≤ trOpenNew.created_at) ∧
    close_trade_in_db "A" "EURUSD" "buy" 1 "POSITION_CLOSED" (some "p1") none 7 40 dbLedger =
      (true, dbLedger.map (closeRow trOpenNew.id "POSITION_CLOSED" (some "p1") none 7 40)) :=
  (close_trade_selects_latest_open "A" "EURUSD" "buy" 1 "POSITION_CLOSED" (some "p1")
      none 7 40 dbLedger).1 trOpenNew
    (by norm_num [dbLedger, trOpenOld, trOpenNew, trClosedRow, pickLatest, openMatch,
      List.filter])

/-- C3 (counterexample): a record whose status is CLOSED is modified by a
subsequent `update_trade_status` for its `(trade_id, account_name)` key —
the UPDATE has no guard on current status, so the closed record's status is
overwritten. -/
theorem ledger_closed_record_mutated_cex :
    trClosedRow.status = "CLOSED" ∧
    update_trade_status "t3" "A" "FILLED" none none 40 [trClosedRow] =
      [{ trClosedRow with status := "FILLED", metadata := none, updated_at := 40 }] ∧
    ({ trClosedRow with status := "FILLED", metadata := none, updated_at := 40 } :
        TradeRec).status ≠ "CLOSED" :=
  ⟨rfl, rfl, by decide⟩

/-- C3 (amended): every sequence of ledger operations preserves the
`UNIQUE(trade_id, account_name)` constraint — hence at most one non-closed
record per key — and `close_trade_in_db` itself never modifies a record whose
status is CLOSED (rowids assumed pairwise distinct, as for a primary key).
A CLOSED record is, however, not immutable: `update_trade_status` rewrites
its status and `save_trade_to_db` replaces it with a fresh PENDING row. -/
theorem ledger_unique_key_invariant :
    (∀ (ops : List LedgerOp) (db : List TradeRec), uniqueKeys db →
       uniqueKeys (ops.foldl applyOp db) ∧ atMostOneOpenPerKey (ops.foldl applyOp db))
  ∧ (∀ (acct sym sd : String) (lot : ℚ) (method : String) (pid oid : Option String)
       (pnl : ℚ) (now : Nat) (db : List TradeRec) (r : TradeRec),
       db.Pairwise (fun a b => a.id ≠ b.id) → r ∈ db → r.status = "CLOSED" →
       r ∈ (close_trade_in_db acct sym sd lot method pid oid pnl now db).2) := by
  constructor
  · intro ops
    induction ops with
    | nil => intro db h; exact ⟨h, uniqueKeys_atMostOneOpen h⟩
    | cons op rest ih =>
      intro db h
      rw [List.foldl_cons]
      exact ih (applyOp db op) (uniqueKeys_applyOp db op h)
  · intro acct sym sd lot method pid oid pnl now db r hids hr hclosed
    unfold close_trade_in_db
    cases hp : pickLatest (db.filter (openMatch acct sym sd lot)) with
    | none => simpa using hr
    | some t =>
      dsimp only []
      have ht := pickLatest_mem _ t hp
      have htf := List.mem_filter.mp ht
      have hto := openMatch_fields htf.2
      have htne : r ≠ t := by
        intro he
        subst he
        rcases hto.2.2.2.2.1 with hs | hs <;> rw [hclosed] at hs <;> exact absurd hs (by decide)
      have hid : r.id ≠ t.id :=
        List.Pairwise.forall (fun x y hxy => hxy.symm) hids hr htf.1 htne
      refine List.mem_map.mpr ⟨r, hr, ?_⟩
      simp [closeRow, hid]

/-- Witness for C3's amended theorem at concrete inputs: a save/update/close
sequence from the empty ledger keeps keys unique, and a concrete CLOSED row
survives `close_trade_in_db` untouched. -/
theorem ledger_unique_key_invariant_witness :
    (uniqueKeys
      (([.save "t1" "A" "EURUSD" "buy" 1 2 0 (some "o1") none 10,
         .update "t1" "A" "FILLED" (some "p1") none 20,
         .close "A" "EURUSD" "buy" 1 "POSITION_CLOSED" (some "p1") none 0 30] :
          List LedgerOp).foldl applyOp []) ∧
     atMostOneOpenPerKey
      (([.save "t1" "A" "EURUSD" "buy" 1 2 0 (some "o1") none 10,
         .update "t1" "A" "FILLED" (some "p1") none 20,
         .close "A" "EURUSD" "buy" 1 "POSITION_CLOSED" (some "p1") none 0 30] :
          List LedgerOp).foldl applyOp [])) ∧
    trClosedRow ∈
      (close_trade_in_db "A" "EURUSD" "buy" 1 "POSITION_CLOSED" none none 0 40
        [trClosedRow]).2 :=
  ⟨ledger_unique_key_invariant.1 _ [] List.Pairwise.nil,
   ledger_unique_key_invariant.2 "A" "EURUSD" "buy" 1 "POSITION_CLOSED" none none 0 40
     [trClosedRow] trClosedRow (List.pairwise_singleton _ _)
     (List.mem_singleton.mpr rfl) rfl⟩

/-- Witness for C5 at concrete inputs: a single-attempt run hitting 409 with
the position gone on re-check succeeds; a single-attempt run hitting 404 with
the position still present fails (no attempts remain to retry). -/
theorem closer_conflict_and_notfound_paths_witness :
    close_filled_position_safe "7" [⟨TokenFetch.ok, .ok 409, .ok none⟩] = .ok (some true) ∧
    close_filled_position_safe "7" [⟨TokenFetch.ok, .ok 404, .ok (some ["7"])⟩] =
      .ok (some false) := by
  constructor
  · exact closer_conflict_and_notfound_paths.1 "7" ⟨TokenFetch.ok, .ok 409, .ok none⟩ []
      rfl rfl rfl
  · have h := closer_conflict_and_notfound_paths.2 "7"
      ⟨TokenFetch.ok, .ok 404, .ok (some ["7"])⟩ [] rfl rfl (by rfl)
    simpa using h
